import Mathlib

/-!
Verification development for `universal_proxy.js`: a transparent interception
layer wrapping objects/functions in JavaScript `Proxy` handlers that log every
structural operation.  We shallowly embed the JS value universe, the platform
primitives the code calls (`Reflect.*`, `JSON.stringify`, string coercion),
and each trap handler of `createProxy` / `createFunctionProxy`, together with
the `safeStringify` serializer.  Each trap returns its result alongside an
ordered trace of the externally visible actions it performed (hook calls,
the real underlying primitive operation, log emissions), so that claims about
logging, bypasses and ordering can be stated and settled.
-/

/-- Property keys in JS are strings or symbols (a symbol has an optional
description). -/
inductive PropKey where
  | str (s : String)
  | sym (descr : Option String)
deriving DecidableEq, BEq, Repr

/-- Shallow embedding of the JS values the interception layer manipulates.
`vCyclic` models an object containing a circular reference (not expressible
structurally in an inductive type): the platform serializer fails on it.
`vFunc name returnsThis ret` models a function with declared `name` whose
call returns its receiver when `returnsThis`, else `ret`; construction also
yields `ret`.  `vProxy path target` / `vFnProxy path target` are the wrapped
values produced by `createProxy` / `createFunctionProxy` at `path`. -/
inductive JSValue where
  | vNull
  | vUndefined
  | vBool (b : Bool)
  | vInt (n : Int)
  | vStr (s : String)
  | vBigInt (n : Int)
  | vSymbol (descr : Option String)
  | vObj (props : List (PropKey × JSValue))
  | vArr (elems : List JSValue)
  | vCyclic
  | vFunc (name : String) (returnsThis : Bool) (ret : JSValue)
  | vProxy (path : String) (target : JSValue)
  | vFnProxy (path : String) (target : JSValue)
deriving Repr

/-- The JS `typeof` operator.  `typeof` of a proxy equals `typeof` of its
target; `vProxy` only ever wraps object-typed targets, `vFnProxy` functions. -/
def typeof : JSValue → String
  | .vNull => "object"
  | .vUndefined => "undefined"
  | .vBool _ => "boolean"
  | .vInt _ => "number"
  | .vStr _ => "string"
  | .vBigInt _ => "bigint"
  | .vSymbol _ => "symbol"
  | .vObj _ => "object"
  | .vArr _ => "object"
  | .vCyclic => "object"
  | .vFunc _ _ _ => "function"
  | .vProxy _ _ => "object"
  | .vFnProxy _ _ => "function"

/-- `value == null` in JS: true exactly for `null` and `undefined`. -/
def isNullish : JSValue → Bool
  | .vNull => true
  | .vUndefined => true
  | _ => false

/-- JS truthiness. -/
def isTruthy : JSValue → Bool
  | .vNull => false
  | .vUndefined => false
  | .vBool b => b
  | .vInt n => decide (n ≠ 0)
  | .vStr s => !s.isEmpty
  | .vBigInt n => decide (n ≠ 0)
  | .vSymbol _ => true
  | .vObj _ => true
  | .vArr _ => true
  | .vCyclic => true
  | .vFunc _ _ _ => true
  | .vProxy _ _ => true
  | .vFnProxy _ _ => true

/-- `typeof value === 'object'`. -/
def isObjType (v : JSValue) : Bool := typeof v == "object"

/-- `typeof value === 'function'`. -/
def isFnType (v : JSValue) : Bool := typeof v == "function"

/-- A live object or function reference (what the spec calls a value that
must not escape unwrapped): a truthy object-typed value or a function. -/
def isObjOrFn (v : JSValue) : Bool := (isTruthy v && isObjType v) || isFnType v

/-- A value produced by the interception layer's wrapping step. -/
def isWrapped : JSValue → Bool
  | .vProxy _ _ => true
  | .vFnProxy _ _ => true
  | _ => false

mutual

/-- JS `String(value)` coercion (used by `safeStringify` for primitives and
by template-literal interpolation).  For proxies this forwards to the target,
approximating the platform's transparent forwarding. -/
def jsString : JSValue → String
  | .vNull => "null"
  | .vUndefined => "undefined"
  | .vBool b => if b then "true" else "false"
  | .vInt n => toString n
  | .vStr s => s
  | .vBigInt n => toString n
  | .vSymbol d => "Symbol(" ++ d.getD "" ++ ")"
  | .vFunc n _ _ => "function " ++ n ++ "() [native code]"
  | .vObj _ => "[object Object]"
  | .vCyclic => "[object Object]"
  | .vArr es => jsStringElems es
  | .vProxy _ t => jsString t
  | .vFnProxy _ t => jsString t

/-- `Array.prototype.toString`: elements joined by commas. -/
def jsStringElems : List JSValue → String
  | [] => ""
  | [e] => jsString e
  | e :: rest => jsString e ++ "," ++ jsStringElems rest

end

mutual

/-- Modelled from the spec: the platform's structural-serialization routine
(`JSON.stringify`), which is not part of this repository.  Returns `none`
where the platform returns `undefined` (functions, symbols at top level),
and fails — as the platform does — on circular structures and BigInt. -/
def jsonStringify : JSValue → Except String (Option String)
  | .vNull => .ok (some "null")
  | .vUndefined => .ok none
  | .vBool b => .ok (some (if b then "true" else "false"))
  | .vInt n => .ok (some (toString n))
  | .vStr s => .ok (some ("\"" ++ s ++ "\""))
  | .vBigInt _ => .error "Do not know how to serialize a BigInt"
  | .vSymbol _ => .ok none
  | .vFunc _ _ _ => .ok none
  | .vCyclic => .error "Converting circular structure to JSON"
  | .vArr es =>
    match jsonElems es with
    | .error e => .error e
    | .ok ss => .ok (some ("[" ++ String.intercalate "," ss ++ "]"))
  | .vObj ps =>
    match jsonProps ps with
    | .error e => .error e
    | .ok ss => .ok (some ("\x7b" ++ String.intercalate "," ss ++ "\x7d"))
  | .vProxy _ t => jsonStringify t
  | .vFnProxy _ _ => .ok none

/-- Array elements: non-serializable members render as `null`. -/
def jsonElems : List JSValue → Except String (List String)
  | [] => .ok []
  | e :: rest =>
    match jsonStringify e with
    | .error err => .error err
    | .ok r =>
      match jsonElems rest with
      | .error err => .error err
      | .ok ss => .ok ((r.getD "null") :: ss)

/-- Object properties: symbol keys and `undefined`-valued members are
omitted. -/
def jsonProps : List (PropKey × JSValue) → Except String (List String)
  | [] => .ok []
  | (k, v) :: rest =>
    match jsonStringify v with
    | .error err => .error err
    | .ok r =>
      match jsonProps rest with
      | .error err => .error err
      | .ok ss =>
        match k, r with
        | PropKey.sym _, _ => .ok ss
        | PropKey.str _, none => .ok ss
        | PropKey.str s, some rs => .ok (("\"" ++ s ++ "\":" ++ rs) :: ss)

end

/-- `safeStringify` from `universal_proxy.js`: nullish values go through
`String(value)`; object-typed values are handed to the platform serializer
with no exception handling, so its failure propagates; every other primitive
(string, number, boolean, bigint, symbol — and functions) is coerced with
`String(value)` and never throws. -/
def safeStringify (value : JSValue) : Except String String :=
  if isNullish value then .ok (jsString value)
  else if isObjType value then
    match jsonStringify value with
    | .error e => .error e
    | .ok (some s) => .ok s
    | .ok none => .ok "undefined"
  else .ok (jsString value)

/-- The merged options record built in the `Universal_proxy` constructor
(caller options over defaults).  Hooks returning a JS value are modelled as
Lean functions; the `?? fallback` nullish-coalescing applied to their results
is modelled at the call sites.  `beforeGet` / `afterSet` results are discarded
by the source, `beforeApply` may return a replacement argument array or a
nullish value (`none`). -/
structure ProxyOptions where
  logLevel : String := "info"
  watchedProps : Option (List String) := none
  contextName : String := "obj"
  type : String := "object"
  bindThis : Bool := false
  beforeGet : Option (String → PropKey → Unit) := none
  afterGet : Option (String → PropKey → JSValue → JSValue) := none
  beforeSet : Option (String → PropKey → JSValue → JSValue) := none
  afterSet : Option (String → PropKey → JSValue → Unit) := none
  beforeApply : Option (String → List JSValue → Option (List JSValue)) := none
  afterApply : Option (String → JSValue → JSValue) := none

/-- The all-defaults options record. -/
def defaultOptions : ProxyOptions := {}

/-- `watchedProps.has(prop)`: the watched set holds string keys, so a symbol
key is never a member. -/
def watchedHas (l : List String) : PropKey → Bool
  | .str s => l.contains s
  | .sym _ => false

/-- The get trap's first guard:
`self.options.watchedProps && !self.options.watchedProps.has(prop)`. -/
def watchedBypass (opts : ProxyOptions) (prop : PropKey) : Bool :=
  match opts.watchedProps with
  | none => false
  | some l => !(watchedHas l prop)

/-- Character-list prefix test (kernel-reducible). -/
def startsWithChars : List Char → List Char → Bool
  | [], _ => true
  | _ :: _, [] => false
  | a :: as, b :: bs => a == b && startsWithChars as bs

/-- Character-list substring containment (kernel-reducible). -/
def containsChars (pat : List Char) : List Char → Bool
  | [] => startsWithChars pat []
  | c :: rest => startsWithChars pat (c :: rest) || containsChars pat rest

/-- JS `String.prototype.includes`: substring containment test. -/
def jsIncludes (s pat : String) : Bool := containsChars pat.data s.data

/-- `String(prop)` as used to build `fullPath`. -/
def propToString : PropKey → String
  | .str s => s
  | .sym d => "Symbol(" ++ d.getD "" ++ ")"

/-- The log rendering of a property key:
`typeof prop === 'symbol' ? prop.description ?? '[Symbol]' : prop`. -/
def propStr : PropKey → String
  | .str s => s
  | .sym d => d.getD "[Symbol]"

/-- Template rendering of a Bool result (`${result}`). -/
def boolStr (b : Bool) : String := if b then "true" else "false"

/-- Template-literal interpolation of a JS value: `String()` semantics,
except that symbols throw. -/
def templateCoe : JSValue → Except String String
  | .vSymbol _ => .error "Cannot convert a Symbol value to a string"
  | v => .ok (jsString v)

/-- The declared `fn.name` of a function value. -/
def fnName : JSValue → String
  | .vFunc n _ _ => n
  | .vFnProxy _ t => fnName t
  | _ => ""

/-- One externally visible action of a trap handler, in execution order:
a configured hook invocation, the real underlying primitive operation, or a
log emission carrying the formatted line. -/
inductive TraceStep where
  | aHook (name : String)
  | aOp (name : String)
  | aLog (line : String)
deriving DecidableEq, BEq, Repr

/-- Number of log events in a trace. -/
def countLog : List TraceStep → Nat
  | [] => 0
  | TraceStep.aLog _ :: rest => countLog rest + 1
  | _ :: rest => countLog rest

/-- The formatted lines of the log events in a trace, in order. -/
def logLines : List TraceStep → List String
  | [] => []
  | TraceStep.aLog s :: rest => s :: logLines rest
  | _ :: rest => logLines rest

/-- No log emission occurs before the first real primitive operation. -/
def opBeforeLog : List TraceStep → Bool
  | [] => true
  | TraceStep.aLog _ :: _ => false
  | TraceStep.aOp _ :: _ => true
  | _ :: rest => opBeforeLog rest

/-- A log emission occurs before any real primitive operation. -/
def logBeforeOp : List TraceStep → Bool
  | [] => true
  | TraceStep.aOp _ :: _ => false
  | TraceStep.aLog _ :: _ => true
  | _ :: rest => logBeforeOp rest

/-- `Reflect.get(t, prop, receiver)` on the raw target: own-property lookup
on plain objects, proxy-transparent forwarding for proxies; reads on other
values yield `undefined` (prototype chains are not modelled — the
instrumented environments under the claims are plain data objects). -/
def reflectGet (t : JSValue) (prop : PropKey) : JSValue :=
  match t with
  | .vObj props => (props.lookup prop).getD .vUndefined
  | .vProxy _ tgt => reflectGet tgt prop
  | .vFnProxy _ tgt => reflectGet tgt prop
  | _ => .vUndefined

/-- Replace-or-append update of an object's property list. -/
def setProp : List (PropKey × JSValue) → PropKey → JSValue → List (PropKey × JSValue)
  | [], k, v => [(k, v)]
  | (k0, v0) :: rest, k, v =>
    if k0 == k then (k, v) :: rest else (k0, v0) :: setProp rest k v

/-- `Reflect.set`: returns the updated target and the success indicator
(false on non-objects). -/
def reflectSet (t : JSValue) (prop : PropKey) (v : JSValue) : JSValue × Bool :=
  match t with
  | .vObj props => (.vObj (setProp props prop v), true)
  | _ => (t, false)

/-- `Reflect.has` (the `in` operator) on the raw target. -/
def reflectHas (t : JSValue) (prop : PropKey) : Bool :=
  match t with
  | .vObj props => (props.lookup prop).isSome
  | _ => false

/-- `Reflect.deleteProperty`: removes an own property, reporting success. -/
def reflectDeleteProperty (t : JSValue) (prop : PropKey) : JSValue × Bool :=
  match t with
  | .vObj props => (.vObj (props.filter (fun p => !(p.1 == prop))), true)
  | _ => (t, true)

/-- `Reflect.defineProperty`: installs the descriptor's `value` member as the
property (accessor descriptors and attribute flags are not modelled). -/
def reflectDefineProperty (t : JSValue) (prop : PropKey) (attributes : JSValue) :
    JSValue × Bool :=
  match t with
  | .vObj props => (.vObj (setProp props prop (reflectGet attributes (.str "value"))), true)
  | _ => (t, false)

/-- `Reflect.getPrototypeOf` (prototypes are not modelled: always `null`). -/
def reflectGetPrototypeOf (_t : JSValue) : JSValue := .vNull

/-- `Reflect.setPrototypeOf` (prototypes are not modelled: reports success,
target unchanged). -/
def reflectSetPrototypeOf (_t : JSValue) (_proto : JSValue) : Bool := true

/-- `Reflect.preventExtensions` (extensibility is not modelled). -/
def reflectPreventExtensions (_t : JSValue) : Bool := true

/-- `Reflect.isExtensible` (extensibility is not modelled). -/
def reflectIsExtensible (_t : JSValue) : Bool := true

/-- `Reflect.apply(target, thisArg, args)`: `vFunc` returns its receiver or
its fixed result; applying a function proxy forwards to the target (its
trap's logging side effects are not re-modelled here); applying a
non-function is not modelled (the claims only apply functions). -/
def reflectApply (fn : JSValue) (thisArg : JSValue) (args : List JSValue) : JSValue :=
  match fn with
  | .vFunc _ rThis ret => if rThis then thisArg else ret
  | .vFnProxy _ t => reflectApply t thisArg args
  | _ => .vUndefined

/-- `Reflect.construct(target, args, newTarget)`: yields the function's
modelled instance. -/
def reflectConstruct (fn : JSValue) (args : List JSValue) : JSValue :=
  match fn with
  | .vFunc _ _ ret => ret
  | .vFnProxy _ t => reflectConstruct t args
  | _ => .vUndefined

/-- The recursive-wrapping step of the get trap: a truthy object-typed value
is wrapped via `createProxy(value, fullPath)`, a function via
`createFunctionProxy(value, fullPath)`, anything else passes through.
(Proxy creation installs handlers lazily, so creating the child proxy is
just pairing the raw value with its path.) -/
def wrapForGet (fullPath : String) (value : JSValue) : JSValue :=
  if isTruthy value && isObjType value then .vProxy fullPath value
  else if isFnType value then .vFnProxy fullPath value
  else value

/-- The `get` trap of `createProxy(target, path)`.  In source order:
the `watchedProps` bypass, the `console` path exemption, `beforeGet` hook,
`Reflect.get`, recursive wrapping of object/function results, `afterGet`
hook with nullish-coalescing fallback, log emission (whose line serializes
the final value with `safeStringify`, so a serialization failure propagates
out of the trap), and the return of the final value. -/
def getTrap (opts : ProxyOptions) (path : String) (t : JSValue) (prop : PropKey) :
    Except String (JSValue × List TraceStep) :=
  if watchedBypass opts prop then
    .ok (reflectGet t prop, [TraceStep.aOp "Reflect.get"])
  else if jsIncludes path "console" then
    .ok (reflectGet t prop, [TraceStep.aOp "Reflect.get"])
  else
    let fullPath := path ++ "." ++ propToString prop
    let beforeActs : List TraceStep :=
      match opts.beforeGet with
      | none => []
      | some _ => [TraceStep.aHook "beforeGet"]
    let value0 := reflectGet t prop
    let value := wrapForGet fullPath value0
    let va :=
      match opts.afterGet with
      | none => (value, ([] : List TraceStep))
      | some h =>
        let r := h path prop value
        (if isNullish r then value else r, [TraceStep.aHook "afterGet"])
    let finalValue := va.1
    let afterActs := va.2
    (safeStringify finalValue).map fun s =>
      (finalValue,
        beforeActs ++ [TraceStep.aOp "Reflect.get"] ++ afterActs ++
          [TraceStep.aLog ("調用者 => [" ++ path ++ "] 獲取屬性 => [" ++ propStr prop ++
            "], 結果 => [" ++ s ++ "]")])

/-- The `set` trap: `beforeSet` hook with nullish-coalescing value
substitution, the real `Reflect.set`, `afterSet` hook, one log event, and
the underlying success indicator.  There is no `watchedProps` and no
`console` check in this trap.  Returns the updated target alongside. -/
def setTrap (opts : ProxyOptions) (path : String) (t : JSValue) (prop : PropKey)
    (value : JSValue) : Except String (JSValue × Bool × List TraceStep) :=
  let (newValue, beforeActs) :=
    match opts.beforeSet with
    | none => (value, ([] : List TraceStep))
    | some h =>
      let r := h path prop value
      (if isNullish r then value else r, [TraceStep.aHook "beforeSet"])
  let ts := reflectSet t prop newValue
  let afterActs : List TraceStep :=
    match opts.afterSet with
    | none => []
    | some _ => [TraceStep.aHook "afterSet"]
  (safeStringify newValue).map fun s =>
    (ts.1, ts.2,
      beforeActs ++ [TraceStep.aOp "Reflect.set"] ++ afterActs ++
        [TraceStep.aLog ("調用者 => [" ++ path ++ "] 設置屬性 => [" ++ propStr prop ++
          "], 值為 => [" ++ s ++ "]")])

/-- The `has` trap (`in` operator): real check, one log event, unchanged
boolean.  No hooks, no `watchedProps` or `console` filtering. -/
def hasTrap (path : String) (t : JSValue) (prop : PropKey) : Bool × List TraceStep :=
  let result := reflectHas t prop
  let line := "調用者 => [" ++ path ++ "] in 操作符檢查屬性 => [" ++ propStr prop ++
    "], 結果 => [" ++ boolStr result ++ "]"
  (result, [TraceStep.aOp "Reflect.has", TraceStep.aLog line])

/-- The `deleteProperty` trap: real deletion, one log event, result.
Returns the updated target alongside. -/
def deletePropertyTrap (path : String) (t : JSValue) (prop : PropKey) :
    JSValue × Bool × List TraceStep :=
  let ts := reflectDeleteProperty t prop
  let line := "調用者 => [" ++ path ++ "] 刪除屬性 => [" ++ propStr prop ++
    "], 結果 => [" ++ boolStr ts.2 ++ "]"
  (ts.1, ts.2, [TraceStep.aOp "Reflect.deleteProperty", TraceStep.aLog line])

/-- The `defineProperty` trap: real definition, one log event (serializing
the descriptor, so a serialization failure propagates), result. -/
def definePropertyTrap (path : String) (t : JSValue) (prop : PropKey)
    (attributes : JSValue) : Except String (JSValue × Bool × List TraceStep) :=
  let ts := reflectDefineProperty t prop attributes
  (safeStringify attributes).map fun s =>
    (ts.1, ts.2,
      [TraceStep.aOp "Reflect.defineProperty",
       TraceStep.aLog ("調用者 => [" ++ path ++ "] 定義屬性 => [" ++ propStr prop ++
         "] 描述 => [" ++ s ++ "], 結果 => [" ++ boolStr ts.2 ++ "]")])

/-- The `getPrototypeOf` trap: real query, one log event, result. -/
def getPrototypeOfTrap (path : String) (t : JSValue) :
    Except String (JSValue × List TraceStep) :=
  let result := reflectGetPrototypeOf t
  (safeStringify result).map fun s =>
    (result,
      [TraceStep.aOp "Reflect.getPrototypeOf",
       TraceStep.aLog ("調用者 => [" ++ path ++ "] 獲取原型 => [], 結果 => [" ++ s ++ "]")])

/-- The `setPrototypeOf` trap.  Note the source order: the log line is
emitted first, and `Reflect.setPrototypeOf` runs afterwards in the return
statement. -/
def setPrototypeOfTrap (path : String) (t : JSValue) (proto : JSValue) :
    Except String (Bool × List TraceStep) :=
  (safeStringify proto).map fun s =>
    (reflectSetPrototypeOf t proto,
      [TraceStep.aLog ("調用者 => [" ++ path ++ "] 設置原型 => [" ++ s ++ "]"),
       TraceStep.aOp "Reflect.setPrototypeOf"])

/-- The `preventExtensions` trap.  As in the source, the log line is emitted
before `Reflect.preventExtensions` runs in the return statement. -/
def preventExtensionsTrap (path : String) (t : JSValue) : Bool × List TraceStep :=
  let line := "調用者 => [" ++ path ++ "] 防止物件擴展 => []"
  (reflectPreventExtensions t,
    [TraceStep.aLog line, TraceStep.aOp "Reflect.preventExtensions"])

/-- The `isExtensible` trap: real query, one log event, result. -/
def isExtensibleTrap (path : String) (t : JSValue) : Bool × List TraceStep :=
  let result := reflectIsExtensible t
  let line := "調用者 => [" ++ path ++ "] 檢查物件是否可擴展 => [], 結果 => [" ++
    boolStr result ++ "]"
  (result, [TraceStep.aOp "Reflect.isExtensible", TraceStep.aLog line])

/-- The `apply` trap of `createFunctionProxy(fn, path)`: optional receiver
rebinding (`bindThis` replaces the caller's receiver with the raw target
function), `beforeApply` hook with nullish-coalescing argument substitution,
`Reflect.apply`, `afterApply` hook with nullish-coalescing result
substitution, then one log event — reduced to the first argument when the
function's declared name is `addEventListener`, serializing all arguments
otherwise — and the return of the (unwrapped) result. -/
def applyTrap (opts : ProxyOptions) (path : String) (fn : JSValue)
    (thisArg : JSValue) (args : List JSValue) :
    Except String (JSValue × List TraceStep) :=
  let thisArg2 := if opts.bindThis then fn else thisArg
  let fa :=
    match opts.beforeApply with
    | none => (args, ([] : List TraceStep))
    | some h =>
      match h path args with
      | none => (args, [TraceStep.aHook "beforeApply"])
      | some a => (a, [TraceStep.aHook "beforeApply"])
  let finalArgs := fa.1
  let beforeActs := fa.2
  let result0 := reflectApply fn thisArg2 finalArgs
  let ra :=
    match opts.afterApply with
    | none => (result0, ([] : List TraceStep))
    | some h =>
      let r := h path result0
      (if isNullish r then result0 else r, [TraceStep.aHook "afterApply"])
  let result := ra.1
  let afterActs := ra.2
  if fnName fn == "addEventListener" then
    (templateCoe (finalArgs.headD .vUndefined)).bind fun a0 =>
      (safeStringify result).map fun s =>
        (result,
          beforeActs ++ [TraceStep.aOp "Reflect.apply"] ++ afterActs ++
            [TraceStep.aLog ("調用者 => [" ++ path ++ "] 調用函數 => [" ++ fnName fn ++
              "], 傳參 => [" ++ a0 ++ "], 結果 => [" ++ s ++ "]")])
  else
    (safeStringify (.vArr finalArgs)).bind fun sa =>
      (safeStringify result).map fun s =>
        (result,
          beforeActs ++ [TraceStep.aOp "Reflect.apply"] ++ afterActs ++
            [TraceStep.aLog ("調用者 => [" ++ path ++ "] 調用函數 => [" ++ fnName fn ++
              "], 傳參 => [" ++ sa ++ "], 結果 => [" ++ s ++ "]")])

/-- The `construct` trap of `createFunctionProxy`: real construction with the
supplied arguments, one log event naming the constructor and serializing
arguments and result, and the return of the (unwrapped) instance.  No hook
is consulted. -/
def constructTrap (path : String) (fn : JSValue) (args : List JSValue) :
    Except String (JSValue × List TraceStep) :=
  let finalArgs := args
  let result := reflectConstruct fn finalArgs
  (safeStringify (.vArr finalArgs)).bind fun sa =>
    (safeStringify result).map fun s =>
      (result,
        [TraceStep.aOp "Reflect.construct",
         TraceStep.aLog ("調用者 => [" ++ path ++ "] 構造物件 => [" ++ fnName fn ++
           "], 傳參 => [" ++ sa ++ "], 結果 => [" ++ s ++ "]")])

/-- The `Universal_proxy` constructor after options merging: `type: 'method'`
with a callable target yields a function proxy, everything else an object
proxy, rooted at `contextName`. -/
def instrument (target : JSValue) (opts : ProxyOptions) : JSValue :=
  if opts.type == "method" && isFnType target then
    .vFnProxy opts.contextName target
  else
    .vProxy opts.contextName target

/-- A property read on a value as the observer performs it: a read on an
object wrapper runs the `get` trap; a read on a function wrapper is
forwarded untrapped to the target (`createFunctionProxy` installs no `get`
handler); a read on a raw value is the plain platform read. -/
def readThrough (opts : ProxyOptions) (v : JSValue) (prop : PropKey) :
    Except String (JSValue × List TraceStep) :=
  match v with
  | .vProxy path target => getTrap opts path target prop
  | .vFnProxy _ target => .ok (reflectGet target prop, [])
  | _ => .ok (reflectGet v prop, [])

/-- A chain of property reads `v.k1.k2...`, accumulating the trace. -/
def readChain (opts : ProxyOptions) : JSValue → List PropKey →
    Except String (JSValue × List TraceStep)
  | v, [] => .ok (v, [])
  | v, k :: ks =>
    match readThrough opts v k with
    | .error e => .error e
    | .ok (v2, tr) =>
      match readChain opts v2 ks with
      | .error e => .error e
      | .ok (r, tr2) => .ok (r, tr ++ tr2)

/-- Execution-following side condition for a chain of reads: every hop goes
through an object wrapper whose path lies outside the exempt `console`
subtree, and no raw value read at an intermediate hop is a function.  A
function value may end the chain — the `get` trap wraps it as a function
proxy — but may not be read through, because `createFunctionProxy` installs
no read trap, so reads on a function wrapper escape instrumentation.
Mirrors the wrap step of the `get` trap under `watchedProps = null` and no
after-read hook. -/
def chainOk (opts : ProxyOptions) : JSValue → List PropKey → Bool
  | _, [] => true
  | JSValue.vProxy p t, k :: ks =>
    if jsIncludes p "console" then false
    else if isFnType (reflectGet t k) && !ks.isEmpty then false
    else chainOk opts (wrapForGet (p ++ "." ++ propToString k) (reflectGet t k)) ks
  | v, k :: ks =>
    if isObjOrFn v then false
    else chainOk opts (reflectGet v k) ks

theorem exceptMap_ok {α β : Type} (x : Except String α) (f : α → β) (res : β)
    (h : x.map f = Except.ok res) : ∃ a, x = Except.ok a ∧ f a = res := by
  cases x with
  | error e => simp [Except.map] at h
  | ok a => exact ⟨a, rfl, by simpa [Except.map] using h⟩

theorem exceptBind_ok {α β : Type} (x : Except String α) (f : α → Except String β)
    (res : β) (h : x.bind f = Except.ok res) :
    ∃ a, x = Except.ok a ∧ f a = Except.ok res := by
  cases x with
  | error e => simp [Except.bind] at h
  | ok a => exact ⟨a, rfl, by simpa [Except.bind] using h⟩

theorem exceptMapPair_ok {α β γ : Type} (x : Except String α) (f : α → β)
    (g : α → γ) (v : β) (tr : γ)
    (h : x.map (fun a => (f a, g a)) = Except.ok (v, tr)) :
    ∃ a, x = Except.ok a ∧ f a = v ∧ g a = tr := by
  obtain ⟨a, h1, h2⟩ := exceptMap_ok x _ _ h
  exact ⟨a, h1, congrArg Prod.fst h2, congrArg Prod.snd h2⟩

theorem exceptMapTriple_ok {α β γ δ : Type} (x : Except String α) (f : α → β)
    (g : α → γ) (k : α → δ) (u : β) (v : γ) (w : δ)
    (h : x.map (fun a => (f a, g a, k a)) = Except.ok (u, v, w)) :
    ∃ a, x = Except.ok a ∧ f a = u ∧ g a = v ∧ k a = w := by
  obtain ⟨a, h1, h2⟩ := exceptMap_ok x _ _ h
  exact ⟨a, h1, congrArg Prod.fst h2, congrArg (fun p => p.2.1) h2,
    congrArg (fun p => p.2.2) h2⟩

/-- C4: the serializer returns the literal textual form for nullish values,
delegates object-typed values to the platform's structural serialization with
no exception handling — so any failure (e.g. a circular reference) propagates
to the caller unmodified and no placeholder string is returned — and coerces
every other primitive (including bigint and symbol) with `String()` without
throwing. -/
theorem C4_safeStringify_contract (v : JSValue) :
    (isNullish v = true → safeStringify v = Except.ok (jsString v)) ∧
    (isNullish v = false → isObjType v = true →
      ∀ e, jsonStringify v = Except.error e → safeStringify v = Except.error e) ∧
    (isNullish v = false → isObjType v = false →
      safeStringify v = Except.ok (jsString v)) := by
  refine ⟨fun h => ?_, fun h1 h2 e he => ?_, fun h1 h2 => ?_⟩
  · simp [safeStringify, h]
  · simp [safeStringify, h1, h2, he]
  · simp [safeStringify, h1, h2]

/-- Witness for C4: a circular structure makes `safeStringify` propagate the
platform failure, a bigint is string-coerced without throwing, and `null`
renders as its literal textual form. -/
theorem C4_witness :
    safeStringify JSValue.vCyclic =
      Except.error "Converting circular structure to JSON" ∧
    safeStringify (JSValue.vBigInt 7) = Except.ok (jsString (JSValue.vBigInt 7)) ∧
    safeStringify JSValue.vNull = Except.ok (jsString JSValue.vNull) :=
  ⟨(C4_safeStringify_contract JSValue.vCyclic).2.1 rfl rfl _ rfl,
   (C4_safeStringify_contract (JSValue.vBigInt 7)).2.2 rfl rfl,
   (C4_safeStringify_contract JSValue.vNull).1 rfl⟩

/-- C10: the exempt-subtree check of the read trap is a substring test on the
whole current path, so at any path containing the character sequence
`console` anywhere — a property named `consoleData`, a contextName containing
`console` — every property read is performed by the raw unintercepted
primitive: no hooks, no log event, no wrapping, whatever the value is. -/
theorem C10_console_substring_bypasses_reads
    (opts : ProxyOptions) (path : String) (t : JSValue) (prop : PropKey)
    (h : jsIncludes path "console" = true) :
    getTrap opts path t prop =
      Except.ok (reflectGet t prop, [TraceStep.aOp "Reflect.get"]) := by
  unfold getTrap
  cases hw : watchedBypass opts prop <;> simp [hw, h]

/-- Witness for C10: a path whose last member is named `consoleData` — a key
unrelated to the logging sink — has its reads bypassed raw. -/
theorem C10_witness :
    jsIncludes "obj.consoleData" "console" = true ∧
    getTrap defaultOptions "obj.consoleData"
        (JSValue.vObj [(PropKey.str "id", JSValue.vObj [])]) (PropKey.str "id") =
      Except.ok (JSValue.vObj [], [TraceStep.aOp "Reflect.get"]) :=
  ⟨by decide, C10_console_substring_bypasses_reads _ _ _ _ (by decide)⟩

/-- C9: when `bindThis` is set, the receiver used for the real call through a
wrapped function is the raw underlying function value itself, not the
caller-supplied receiver; when unset, the caller-supplied receiver is used
unchanged.  Observed through a function that returns its own receiver: the
call's result is the raw function under `bindThis`, the caller's receiver
otherwise. -/
theorem C9_bindThis_receiver
    (opts : ProxyOptions) (path : String) (name : String) (ret : JSValue)
    (thisArg : JSValue) (args : List JSValue) (res : JSValue) (tr : List TraceStep)
    (hb : opts.beforeApply = none) (ha : opts.afterApply = none)
    (hrun : applyTrap opts path (JSValue.vFunc name true ret) thisArg args =
      Except.ok (res, tr)) :
    res = (if opts.bindThis then JSValue.vFunc name true ret else thisArg) := by
  unfold applyTrap at hrun
  rw [hb, ha] at hrun
  dsimp only at hrun
  split at hrun
  · obtain ⟨a0, h1, h2⟩ := exceptBind_ok _ _ _ hrun
    obtain ⟨s, h3, hres, htr⟩ := exceptMapPair_ok _ _ _ _ _ h2
    exact hres.symm
  · obtain ⟨sa, h1, h2⟩ := exceptBind_ok _ _ _ hrun
    obtain ⟨s, h3, hres, htr⟩ := exceptMapPair_ok _ _ _ _ _ h2
    exact hres.symm

/-- Witness for C9: with `bindThis` set, calling a wrapped
receiver-returning function yields the raw function, not the supplied
receiver. -/
theorem C9_witness :
    JSValue.vFunc "f" true JSValue.vNull =
      (if ({ bindThis := true : ProxyOptions }).bindThis then
        JSValue.vFunc "f" true JSValue.vNull
       else JSValue.vStr "caller") :=
  C9_bindThis_receiver { bindThis := true } "p" "f" JSValue.vNull
    (JSValue.vStr "caller") [] (JSValue.vFunc "f" true JSValue.vNull)
    [TraceStep.aOp "Reflect.apply",
     TraceStep.aLog "調用者 => [p] 調用函數 => [f], 傳參 => [[]], 結果 => [function f() [native code]]"]
    rfl rfl (by rfl)

/-- C8: invoking through a wrapped function whose declared name is
`addEventListener` logs a detail consisting of only the first argument (the
event-type discriminator) rather than a serialization of the argument list;
invoking a wrapped function with any other name logs all arguments
serialized in full. -/
theorem C8_addEventListener_log_reduction
    (opts : ProxyOptions) (path : String) (fn : JSValue) (thisArg : JSValue)
    (args : List JSValue)
    (hb : opts.beforeApply = none) (ha : opts.afterApply = none) :
    (fnName fn = "addEventListener" →
      ∀ a0 s, templateCoe (args.headD JSValue.vUndefined) = Except.ok a0 →
        safeStringify (reflectApply fn (if opts.bindThis then fn else thisArg) args) =
          Except.ok s →
        applyTrap opts path fn thisArg args =
          Except.ok (reflectApply fn (if opts.bindThis then fn else thisArg) args,
            [TraceStep.aOp "Reflect.apply",
             TraceStep.aLog ("調用者 => [" ++ path ++ "] 調用函數 => [" ++ fnName fn ++
               "], 傳參 => [" ++ a0 ++ "], 結果 => [" ++ s ++ "]")])) ∧
    (fnName fn ≠ "addEventListener" →
      ∀ sa s, safeStringify (JSValue.vArr args) = Except.ok sa →
        safeStringify (reflectApply fn (if opts.bindThis then fn else thisArg) args) =
          Except.ok s →
        applyTrap opts path fn thisArg args =
          Except.ok (reflectApply fn (if opts.bindThis then fn else thisArg) args,
            [TraceStep.aOp "Reflect.apply",
             TraceStep.aLog ("調用者 => [" ++ path ++ "] 調用函數 => [" ++ fnName fn ++
               "], 傳參 => [" ++ sa ++ "], 結果 => [" ++ s ++ "]")])) := by
  constructor
  · intro hname a0 s h0 hres
    unfold applyTrap
    rw [hb, ha]
    simp only [hname, beq_self_eq_true, if_true]
    rw [h0, hres]
    simp [Except.bind, Except.map]
  · intro hname sa s hargs hres
    unfold applyTrap
    rw [hb, ha]
    have hcond : (fnName fn == "addEventListener") = false := by
      simp [hname]
    simp only [hcond, Bool.false_eq_true, if_false]
    rw [hargs, hres]
    simp [Except.bind, Except.map]

/-- Witness for C8: invoking a wrapped `addEventListener` with
`('click', listener)` logs only `click`; the emitted line contains no
serialization of the listener function. -/
theorem C8_witness :
    applyTrap defaultOptions "env.el.addEventListener"
        (JSValue.vFunc "addEventListener" false JSValue.vUndefined) JSValue.vNull
        [JSValue.vStr "click", JSValue.vFunc "listener" false JSValue.vNull] =
      Except.ok (JSValue.vUndefined,
        [TraceStep.aOp "Reflect.apply",
         TraceStep.aLog "調用者 => [env.el.addEventListener] 調用函數 => [addEventListener], 傳參 => [click], 結果 => [undefined]"]) ∧
    jsIncludes "調用者 => [env.el.addEventListener] 調用函數 => [addEventListener], 傳參 => [click], 結果 => [undefined]" "listener" = false :=
  ⟨(C8_addEventListener_log_reduction defaultOptions "env.el.addEventListener"
      (JSValue.vFunc "addEventListener" false JSValue.vUndefined) JSValue.vNull
      [JSValue.vStr "click", JSValue.vFunc "listener" false JSValue.vNull]
      rfl rfl).1 rfl "click" "undefined" rfl rfl,
   by decide⟩

theorem countLog_append (l1 l2 : List TraceStep) :
    countLog (l1 ++ l2) = countLog l1 + countLog l2 := by
  induction l1 with
  | nil => simp [countLog]
  | cons a l1 ih => cases a <;> simp [countLog, ih] <;> omega

theorem logLines_append (l1 l2 : List TraceStep) :
    logLines (l1 ++ l2) = logLines l1 ++ logLines l2 := by
  induction l1 with
  | nil => simp [logLines]
  | cons a l1 ih => cases a <;> simp [logLines, ih]

theorem logLines_eq_nil (l : List TraceStep) (h : countLog l = 0) :
    logLines l = [] := by
  induction l with
  | nil => simp [logLines]
  | cons a l ih =>
    cases a with
    | aHook n => exact ih (by simpa [countLog] using h)
    | aOp n => exact ih (by simpa [countLog] using h)
    | aLog s => simp [countLog] at h

theorem opBeforeLog_shape (bs : List TraceStep) (h : countLog bs = 0)
    (s : String) (rest : List TraceStep) :
    opBeforeLog (bs ++ TraceStep.aOp s :: rest) = true := by
  induction bs with
  | nil => simp [opBeforeLog]
  | cons a bs ih =>
    cases a with
    | aHook n => simpa [opBeforeLog] using ih (by simpa [countLog] using h)
    | aOp n => simp [opBeforeLog]
    | aLog l => simp [countLog] at h

theorem shape_countLog (bs as : List TraceStep) (oname line : String)
    (hbs : countLog bs = 0) (has2 : countLog as = 0) :
    countLog (bs ++ [TraceStep.aOp oname] ++ as ++ [TraceStep.aLog line]) = 1 := by
  simp [countLog_append, hbs, has2, countLog]

theorem shape_logLines (bs as : List TraceStep) (oname line : String)
    (hbs : countLog bs = 0) (has2 : countLog as = 0) :
    logLines (bs ++ [TraceStep.aOp oname] ++ as ++ [TraceStep.aLog line]) = [line] := by
  simp [logLines_append, logLines_eq_nil bs hbs, logLines_eq_nil as has2, logLines]

theorem shape_opBeforeLog (bs as : List TraceStep) (oname line : String)
    (hbs : countLog bs = 0) :
    opBeforeLog (bs ++ [TraceStep.aOp oname] ++ as ++ [TraceStep.aLog line]) = true := by
  simpa using opBeforeLog_shape bs hbs oname (as ++ [TraceStep.aLog line])

/-- Trace shape of a successful non-bypassed `get` trap run: optional
pre-hook steps, the real read, optional post-hook steps, and exactly one log
line whose actor field is the parent `path` and whose subject is the member
key, carrying the serialization of the returned value. -/
theorem getTrap_shape (opts : ProxyOptions) (path : String) (t : JSValue)
    (prop : PropKey) (v : JSValue) (tr : List TraceStep)
    (hw : watchedBypass opts prop = false)
    (hc : jsIncludes path "console" = false)
    (hrun : getTrap opts path t prop = Except.ok (v, tr)) :
    ∃ bs as s,
      tr = bs ++ [TraceStep.aOp "Reflect.get"] ++ as ++
        [TraceStep.aLog ("調用者 => [" ++ path ++ "] 獲取屬性 => [" ++ propStr prop ++
          "], 結果 => [" ++ s ++ "]")] ∧
      countLog bs = 0 ∧ countLog as = 0 ∧ safeStringify v = Except.ok s := by
  unfold getTrap at hrun
  simp only [hw, hc, Bool.false_eq_true, if_false] at hrun
  cases hbg : opts.beforeGet <;> rw [hbg] at hrun <;>
    cases hag : opts.afterGet <;> rw [hag] at hrun
  · obtain ⟨s, h1, hv, htr⟩ := exceptMapPair_ok _ _ _ _ _ hrun
    exact ⟨[], [], s, htr.symm, rfl, rfl, hv ▸ h1⟩
  · obtain ⟨s, h1, hv, htr⟩ := exceptMapPair_ok _ _ _ _ _ hrun
    exact ⟨[], [TraceStep.aHook "afterGet"], s, htr.symm, rfl, rfl, hv ▸ h1⟩
  · obtain ⟨s, h1, hv, htr⟩ := exceptMapPair_ok _ _ _ _ _ hrun
    exact ⟨[TraceStep.aHook "beforeGet"], [], s, htr.symm, rfl, rfl, hv ▸ h1⟩
  · obtain ⟨s, h1, hv, htr⟩ := exceptMapPair_ok _ _ _ _ _ hrun
    exact ⟨[TraceStep.aHook "beforeGet"], [TraceStep.aHook "afterGet"], s,
      htr.symm, rfl, rfl, hv ▸ h1⟩

/-- Trace shape of a successful `set` trap run: optional pre-hook, the real
write, optional post-hook, exactly one log line — with no `watchedProps` or
`console` filtering anywhere. -/
theorem setTrap_shape (opts : ProxyOptions) (path : String) (t : JSValue)
    (prop : PropKey) (value t2 : JSValue) (success : Bool) (tr : List TraceStep)
    (hrun : setTrap opts path t prop value = Except.ok (t2, success, tr)) :
    ∃ bs as line,
      tr = bs ++ [TraceStep.aOp "Reflect.set"] ++ as ++ [TraceStep.aLog line] ∧
      countLog bs = 0 ∧ countLog as = 0 := by
  unfold setTrap at hrun
  cases hbs : opts.beforeSet <;> rw [hbs] at hrun <;>
    cases has2 : opts.afterSet <;> rw [has2] at hrun <;> dsimp only at hrun
  all_goals
    obtain ⟨s, h1, h2, h3, h4⟩ := exceptMapTriple_ok _ _ _ _ _ _ _ hrun
  all_goals exact ⟨_, _, _, h4.symm, rfl, rfl⟩

/-- Trace shape of a successful `apply` trap run: optional pre-hook, the real
invocation, optional post-hook, exactly one log line. -/
theorem applyTrap_shape (opts : ProxyOptions) (path : String) (fn : JSValue)
    (thisArg : JSValue) (args : List JSValue) (res : JSValue) (tr : List TraceStep)
    (hrun : applyTrap opts path fn thisArg args = Except.ok (res, tr)) :
    ∃ bs as line,
      tr = bs ++ [TraceStep.aOp "Reflect.apply"] ++ as ++ [TraceStep.aLog line] ∧
      countLog bs = 0 ∧ countLog as = 0 := by
  unfold applyTrap at hrun
  rcases hb : opts.beforeApply with _ | h
  · rw [hb] at hrun
    rcases ha : opts.afterApply with _ | g <;> rw [ha] at hrun <;>
      dsimp only at hrun <;> split at hrun
    all_goals
      obtain ⟨a0, h1, h2⟩ := exceptBind_ok _ _ _ hrun
    all_goals
      obtain ⟨s, h3, hres, htr⟩ := exceptMapPair_ok _ _ _ _ _ h2
    all_goals exact ⟨_, _, _, htr.symm, rfl, rfl⟩
  · rw [hb] at hrun
    dsimp only at hrun
    rcases hfa : h path args with _ | a <;> rw [hfa] at hrun <;>
      rcases ha : opts.afterApply with _ | g <;> rw [ha] at hrun <;>
      dsimp only at hrun <;> split at hrun
    all_goals
      obtain ⟨a0, h1, h2⟩ := exceptBind_ok _ _ _ hrun
    all_goals
      obtain ⟨s, h3, hres, htr⟩ := exceptMapPair_ok _ _ _ _ _ h2
    all_goals exact ⟨_, _, _, htr.symm, rfl, rfl⟩

/-- Value returned by a successful non-bypassed `get` trap run: the wrap of
the raw read when no after-read hook is configured; with a hook, the hook's
non-nullish result supersedes the wrapped value. -/
theorem getTrap_value (opts : ProxyOptions) (path : String) (t : JSValue)
    (prop : PropKey) (v : JSValue) (tr : List TraceStep)
    (hw : watchedBypass opts prop = false)
    (hc : jsIncludes path "console" = false)
    (hrun : getTrap opts path t prop = Except.ok (v, tr)) :
    (opts.afterGet = none →
      v = wrapForGet (path ++ "." ++ propToString prop) (reflectGet t prop)) ∧
    (∀ h, opts.afterGet = some h →
      v = (let w := wrapForGet (path ++ "." ++ propToString prop) (reflectGet t prop)
           if isNullish (h path prop w) then w else h path prop w)) := by
  unfold getTrap at hrun
  simp only [hw, hc, Bool.false_eq_true, if_false] at hrun
  constructor
  · intro hag
    rw [hag] at hrun
    cases hbg : opts.beforeGet <;> rw [hbg] at hrun <;> dsimp only at hrun
    all_goals
      obtain ⟨s, h1, hv, htr⟩ := exceptMapPair_ok _ _ _ _ _ hrun
    all_goals exact hv.symm
  · intro h hag
    rw [hag] at hrun
    cases hbg : opts.beforeGet <;> rw [hbg] at hrun <;> dsimp only at hrun
    all_goals
      obtain ⟨s, h1, hv, htr⟩ := exceptMapPair_ok _ _ _ _ _ hrun
    all_goals exact hv.symm

/-- C2 (as amended): only the read trap honours `watchedProperties` — a read
on a key outside the set is performed by the raw unintercepted primitive with
zero log events and the raw unwrapped result — while write, has, delete and
define operations are performed and always emit exactly one log event,
whatever `watchedProperties` contains. -/
theorem C2_watchedProps_bypasses_only_reads
    (opts : ProxyOptions) (path : String) (t : JSValue) (prop : PropKey) :
    (watchedBypass opts prop = true →
      getTrap opts path t prop =
        Except.ok (reflectGet t prop, [TraceStep.aOp "Reflect.get"])) ∧
    (∀ value t2 success tr,
      setTrap opts path t prop value = Except.ok (t2, success, tr) →
      countLog tr = 1) ∧
    (countLog (hasTrap path t prop).2 = 1) ∧
    (countLog (deletePropertyTrap path t prop).2.2 = 1) ∧
    (∀ attrs t2 res tr,
      definePropertyTrap path t prop attrs = Except.ok (t2, res, tr) →
      countLog tr = 1) := by
  refine ⟨fun hw => ?_, fun value t2 success tr hrun => ?_, ?_, ?_,
    fun attrs t2 res tr hrun => ?_⟩
  · unfold getTrap; simp [hw]
  · obtain ⟨bs, as, line, htr, hbs, has2⟩ := setTrap_shape _ _ _ _ _ _ _ _ hrun
    rw [htr]; exact shape_countLog bs as _ _ hbs has2
  · simp [hasTrap, countLog]
  · simp [deletePropertyTrap, countLog]
  · unfold definePropertyTrap at hrun
    obtain ⟨s, h1, h2, h3, h4⟩ := exceptMapTriple_ok _ _ _ _ _ _ _ hrun
    rw [← h4]; rfl

/-- Counterexample to C2 as stated: with `watchedProperties = {userAgent}`,
a WRITE to the unwatched key `platform` is not bypassed — it performs the
write and emits one log event, where the claim requires zero. -/
theorem C2_counterexample :
    watchedHas ["userAgent"] (PropKey.str "platform") = false ∧
    setTrap { watchedProps := some ["userAgent"] } "env" (JSValue.vObj [])
        (PropKey.str "platform") (JSValue.vStr "x") =
      Except.ok (JSValue.vObj [(PropKey.str "platform", JSValue.vStr "x")], true,
        [TraceStep.aOp "Reflect.set",
         TraceStep.aLog "調用者 => [env] 設置屬性 => [platform], 值為 => [x]"]) ∧
    countLog [TraceStep.aOp "Reflect.set",
      TraceStep.aLog "調用者 => [env] 設置屬性 => [platform], 值為 => [x]"] = 1 :=
  ⟨rfl, rfl, rfl⟩

/-- Witness for C2: with `watchedProperties = {userAgent}`, reading
`platform` is bypassed raw with no log; a write to `platform` still logs. -/
theorem C2_witness :
    getTrap { watchedProps := some ["userAgent"] } "env"
        (JSValue.vObj [(PropKey.str "platform", JSValue.vStr "x86")])
        (PropKey.str "platform") =
      Except.ok (JSValue.vStr "x86", [TraceStep.aOp "Reflect.get"]) ∧
    countLog [TraceStep.aOp "Reflect.set",
      TraceStep.aLog "調用者 => [env] 設置屬性 => [platform], 值為 => [x]"] = 1 :=
  ⟨(C2_watchedProps_bypasses_only_reads { watchedProps := some ["userAgent"] } "env"
      (JSValue.vObj [(PropKey.str "platform", JSValue.vStr "x86")])
      (PropKey.str "platform")).1 (by decide),
   (C2_watchedProps_bypasses_only_reads { watchedProps := some ["userAgent"] } "env"
      (JSValue.vObj []) (PropKey.str "platform")).2.1 (JSValue.vStr "x")
      (JSValue.vObj [(PropKey.str "platform", JSValue.vStr "x")]) true
      [TraceStep.aOp "Reflect.set",
       TraceStep.aLog "調用者 => [env] 設置屬性 => [platform], 值為 => [x]"] (by rfl)⟩

/-- C3 (as amended): the exempt-subtree (`console`) bypass applies only to
property reads — a read at a path containing `console` is performed raw with
no log event and no instrumentation — while write, has, delete, define and
invoke operations at such paths still perform and emit exactly one log event
each. -/
theorem C3_console_exemption_only_reads
    (opts : ProxyOptions) (path : String) (t : JSValue) (prop : PropKey)
    (hpath : jsIncludes path "console" = true) :
    (getTrap opts path t prop =
      Except.ok (reflectGet t prop, [TraceStep.aOp "Reflect.get"])) ∧
    (∀ value t2 success tr,
      setTrap opts path t prop value = Except.ok (t2, success, tr) →
      countLog tr = 1) ∧
    (countLog (hasTrap path t prop).2 = 1) ∧
    (countLog (deletePropertyTrap path t prop).2.2 = 1) ∧
    (∀ attrs t2 res tr,
      definePropertyTrap path t prop attrs = Except.ok (t2, res, tr) →
      countLog tr = 1) ∧
    (∀ fn thisArg args res tr,
      applyTrap opts path fn thisArg args = Except.ok (res, tr) →
      countLog tr = 1) := by
  refine ⟨?_, fun value t2 success tr hrun => ?_, ?_, ?_,
    fun attrs t2 res tr hrun => ?_, fun fn thisArg args res tr hrun => ?_⟩
  · unfold getTrap; cases hw : watchedBypass opts prop <;> simp [hw, hpath]
  · obtain ⟨bs, as, line, htr, hbs, has2⟩ := setTrap_shape _ _ _ _ _ _ _ _ hrun
    rw [htr]; exact shape_countLog bs as _ _ hbs has2
  · simp [hasTrap, countLog]
  · simp [deletePropertyTrap, countLog]
  · unfold definePropertyTrap at hrun
    obtain ⟨s, h1, h2, h3, h4⟩ := exceptMapTriple_ok _ _ _ _ _ _ _ hrun
    rw [← h4]; rfl
  · obtain ⟨bs, as, line, htr, hbs, has2⟩ := applyTrap_shape _ _ _ _ _ _ _ hrun
    rw [htr]; exact shape_countLog bs as _ _ hbs has2

/-- Counterexample to C3 as stated: a `has` check at the exempt path
`env.console` — a trap kind the claim covers — emits one log event, where
the claim requires none. -/
theorem C3_counterexample :
    jsIncludes "env.console" "console" = true ∧
    hasTrap "env.console"
        (JSValue.vObj [(PropKey.str "log", JSValue.vFunc "log" false JSValue.vUndefined)])
        (PropKey.str "log") =
      (true, [TraceStep.aOp "Reflect.has",
        TraceStep.aLog "調用者 => [env.console] in 操作符檢查屬性 => [log], 結果 => [true]"]) ∧
    countLog [TraceStep.aOp "Reflect.has",
      TraceStep.aLog "調用者 => [env.console] in 操作符檢查屬性 => [log], 結果 => [true]"] = 1 :=
  ⟨by decide, rfl, rfl⟩

/-- Witness for C3: a read at the exempt path `env.console` is bypassed raw,
emitting no log event. -/
theorem C3_witness :
    getTrap defaultOptions "env.console"
        (JSValue.vObj [(PropKey.str "log", JSValue.vFunc "log" false JSValue.vUndefined)])
        (PropKey.str "log") =
      Except.ok (JSValue.vFunc "log" false JSValue.vUndefined,
        [TraceStep.aOp "Reflect.get"]) :=
  (C3_console_exemption_only_reads defaultOptions "env.console"
    (JSValue.vObj [(PropKey.str "log", JSValue.vFunc "log" false JSValue.vUndefined)])
    (PropKey.str "log") (by decide)).1

/-- C6 (as amended): every trap handler applies its pre-hook first (when one
is configured), performs the real underlying primitive operation, applies the
post-hook, and emits exactly one log event — with the real operation
performed before the log is emitted — for the read, write, has, delete,
define, get-prototype, is-extensible, invoke and construct traps; the
set-prototype and prevent-extensions traps instead emit their log event
before performing the real operation. -/
theorem C6_trap_step_order
    (opts : ProxyOptions) (path : String) (t : JSValue) (prop : PropKey) :
    (∀ v tr, watchedBypass opts prop = false → jsIncludes path "console" = false →
      getTrap opts path t prop = Except.ok (v, tr) →
      countLog tr = 1 ∧ opBeforeLog tr = true) ∧
    (∀ value t2 success tr,
      setTrap opts path t prop value = Except.ok (t2, success, tr) →
      countLog tr = 1 ∧ opBeforeLog tr = true) ∧
    (countLog (hasTrap path t prop).2 = 1 ∧
      opBeforeLog (hasTrap path t prop).2 = true) ∧
    (countLog (deletePropertyTrap path t prop).2.2 = 1 ∧
      opBeforeLog (deletePropertyTrap path t prop).2.2 = true) ∧
    (∀ attrs t2 res tr,
      definePropertyTrap path t prop attrs = Except.ok (t2, res, tr) →
      countLog tr = 1 ∧ opBeforeLog tr = true) ∧
    (∀ v tr, getPrototypeOfTrap path t = Except.ok (v, tr) →
      countLog tr = 1 ∧ opBeforeLog tr = true) ∧
    (countLog (isExtensibleTrap path t).2 = 1 ∧
      opBeforeLog (isExtensibleTrap path t).2 = true) ∧
    (∀ fn thisArg args res tr,
      applyTrap opts path fn thisArg args = Except.ok (res, tr) →
      countLog tr = 1 ∧ opBeforeLog tr = true) ∧
    (∀ fn args res tr, constructTrap path fn args = Except.ok (res, tr) →
      countLog tr = 1 ∧ opBeforeLog tr = true) ∧
    (∀ proto b tr, setPrototypeOfTrap path t proto = Except.ok (b, tr) →
      countLog tr = 1 ∧ logBeforeOp tr = true) ∧
    (countLog (preventExtensionsTrap path t).2 = 1 ∧
      logBeforeOp (preventExtensionsTrap path t).2 = true) := by
  refine ⟨fun v tr hw hc hrun => ?_, fun value t2 success tr hrun => ?_, ?_, ?_,
    fun attrs t2 res tr hrun => ?_, fun v tr hrun => ?_, ?_,
    fun fn thisArg args res tr hrun => ?_, fun fn args res tr hrun => ?_,
    fun proto b tr hrun => ?_, ?_⟩
  · obtain ⟨bs, as, s, htr, hbs, has2, hser⟩ :=
      getTrap_shape _ _ _ _ _ _ hw hc hrun
    rw [htr]
    exact ⟨shape_countLog bs as _ _ hbs has2, shape_opBeforeLog bs as _ _ hbs⟩
  · obtain ⟨bs, as, line, htr, hbs, has2⟩ := setTrap_shape _ _ _ _ _ _ _ _ hrun
    rw [htr]
    exact ⟨shape_countLog bs as _ _ hbs has2, shape_opBeforeLog bs as _ _ hbs⟩
  · constructor <;> simp [hasTrap, countLog, opBeforeLog]
  · constructor <;> simp [deletePropertyTrap, countLog, opBeforeLog]
  · unfold definePropertyTrap at hrun
    obtain ⟨s, h1, h2, h3, h4⟩ := exceptMapTriple_ok _ _ _ _ _ _ _ hrun
    rw [← h4]
    exact ⟨rfl, rfl⟩
  · unfold getPrototypeOfTrap at hrun
    obtain ⟨s, h1, hv, htr⟩ := exceptMapPair_ok _ _ _ _ _ hrun
    rw [← htr]
    exact ⟨rfl, rfl⟩
  · constructor <;> simp [isExtensibleTrap, countLog, opBeforeLog]
  · obtain ⟨bs, as, line, htr, hbs, has2⟩ := applyTrap_shape _ _ _ _ _ _ _ hrun
    rw [htr]
    exact ⟨shape_countLog bs as _ _ hbs has2, shape_opBeforeLog bs as _ _ hbs⟩
  · unfold constructTrap at hrun
    obtain ⟨sa, h1, h2⟩ := exceptBind_ok _ _ _ hrun
    obtain ⟨s, h3, hres, htr⟩ := exceptMapPair_ok _ _ _ _ _ h2
    rw [← htr]
    exact ⟨rfl, rfl⟩
  · unfold setPrototypeOfTrap at hrun
    obtain ⟨s, h1, hb2, htr⟩ := exceptMapPair_ok _ _ _ _ _ hrun
    rw [← htr]
    exact ⟨rfl, rfl⟩
  · constructor <;> simp [preventExtensionsTrap, countLog, logBeforeOp]

/-- Counterexample to C6 as stated: the `preventExtensions` trap emits its
log event before performing the real `Reflect.preventExtensions`, violating
the claimed operation-before-log order for every trap. -/
theorem C6_counterexample :
    preventExtensionsTrap "obj" (JSValue.vObj []) =
      (true, [TraceStep.aLog "調用者 => [obj] 防止物件擴展 => []",
        TraceStep.aOp "Reflect.preventExtensions"]) ∧
    opBeforeLog [TraceStep.aLog "調用者 => [obj] 防止物件擴展 => []",
      TraceStep.aOp "Reflect.preventExtensions"] = false :=
  ⟨rfl, rfl⟩

/-- Witness for C6: on concrete runs, a read performs the real operation
before its single log event, and a set-prototype logs before its real
operation. -/
theorem C6_witness :
    (countLog [TraceStep.aOp "Reflect.get",
        TraceStep.aLog "調用者 => [env] 獲取屬性 => [a], 結果 => [b]"] = 1 ∧
      opBeforeLog [TraceStep.aOp "Reflect.get",
        TraceStep.aLog "調用者 => [env] 獲取屬性 => [a], 結果 => [b]"] = true) ∧
    (countLog [TraceStep.aLog "調用者 => [env] 設置原型 => [null]",
        TraceStep.aOp "Reflect.setPrototypeOf"] = 1 ∧
      logBeforeOp [TraceStep.aLog "調用者 => [env] 設置原型 => [null]",
        TraceStep.aOp "Reflect.setPrototypeOf"] = true) :=
  ⟨(C6_trap_step_order defaultOptions "env"
      (JSValue.vObj [(PropKey.str "a", JSValue.vStr "b")]) (PropKey.str "a")).1
      (JSValue.vStr "b")
      [TraceStep.aOp "Reflect.get",
       TraceStep.aLog "調用者 => [env] 獲取屬性 => [a], 結果 => [b]"]
      (by decide) (by decide) (by rfl),
   (C6_trap_step_order defaultOptions "env" (JSValue.vObj []) (PropKey.str "a")).2.2.2.2.2.2.2.2.2.1
      JSValue.vNull true
      [TraceStep.aLog "調用者 => [env] 設置原型 => [null]",
       TraceStep.aOp "Reflect.setPrototypeOf"]
      (by rfl)⟩

/-- C7 (as amended): the log line of an intercepted read carries as its actor
field the parent access chain (contextName down to the PARENT of the accessed
member) and the member key as a separate field; the dot-concatenation of
parent path and member key is not what is logged — it becomes the path of the
wrapped child value.  With contextName `env`, reading `.navigator.language`
logs actor `env.navigator` with member `language`. -/
theorem C7_logged_path_is_parent_chain
    (opts : ProxyOptions) (path : String) (t : JSValue) (prop : PropKey)
    (v : JSValue) (tr : List TraceStep)
    (hw : watchedBypass opts prop = false)
    (hc : jsIncludes path "console" = false)
    (hrun : getTrap opts path t prop = Except.ok (v, tr)) :
    (∃ s, safeStringify v = Except.ok s ∧
      logLines tr = ["調用者 => [" ++ path ++ "] 獲取屬性 => [" ++ propStr prop ++
        "], 結果 => [" ++ s ++ "]"]) ∧
    (opts.afterGet = none →
      (isTruthy (reflectGet t prop) && isObjType (reflectGet t prop)) = true →
      v = JSValue.vProxy (path ++ "." ++ propToString prop) (reflectGet t prop)) := by
  constructor
  · obtain ⟨bs, as, s, htr, hbs, has2, hser⟩ :=
      getTrap_shape _ _ _ _ _ _ hw hc hrun
    exact ⟨s, hser, by rw [htr]; exact shape_logLines bs as _ _ hbs has2⟩
  · intro hag hobj
    have hv := (getTrap_value _ _ _ _ _ _ hw hc hrun).1 hag
    rw [hv]
    simp [wrapForGet, hobj]

/-- Counterexample to C7 as stated: with contextName `env`, reading
`.navigator.language` produces a second log line whose actor is
`env.navigator` and whose member field is `language`; the full string
`env.navigator.language` does not occur in the emitted line at all. -/
theorem C7_counterexample :
    (readChain { contextName := "env" }
        (instrument (JSValue.vObj [(PropKey.str "navigator",
            JSValue.vObj [(PropKey.str "language", JSValue.vStr "en")])])
          { contextName := "env" })
        [PropKey.str "navigator", PropKey.str "language"]).map
        (fun p => logLines p.2) =
      Except.ok
        ["調用者 => [env] 獲取屬性 => [navigator], 結果 => [\x7b\"language\":\"en\"\x7d]",
         "調用者 => [env.navigator] 獲取屬性 => [language], 結果 => [en]"] ∧
    jsIncludes "調用者 => [env.navigator] 獲取屬性 => [language], 結果 => [en]"
      "env.navigator.language" = false :=
  ⟨rfl, by decide⟩

/-- Witness for C7: the `.navigator` read at contextName `env` logs actor
`env`, and hands back a child wrapped at the concatenated path
`env.navigator`. -/
theorem C7_witness :
    (∃ s, safeStringify (JSValue.vProxy "env.navigator"
          (JSValue.vObj [(PropKey.str "language", JSValue.vStr "en")])) =
        Except.ok s ∧
      logLines [TraceStep.aOp "Reflect.get",
          TraceStep.aLog "調用者 => [env] 獲取屬性 => [navigator], 結果 => [\x7b\"language\":\"en\"\x7d]"] =
        ["調用者 => [" ++ "env" ++ "] 獲取屬性 => [" ++ "navigator" ++
          "], 結果 => [" ++ s ++ "]"]) ∧
    JSValue.vProxy "env.navigator"
        (JSValue.vObj [(PropKey.str "language", JSValue.vStr "en")]) =
      JSValue.vProxy ("env" ++ "." ++ "navigator")
        (JSValue.vObj [(PropKey.str "language", JSValue.vStr "en")]) := by
  have h := C7_logged_path_is_parent_chain { contextName := "env" } "env"
    (JSValue.vObj [(PropKey.str "navigator",
      JSValue.vObj [(PropKey.str "language", JSValue.vStr "en")])])
    (PropKey.str "navigator")
    (JSValue.vProxy "env.navigator"
      (JSValue.vObj [(PropKey.str "language", JSValue.vStr "en")]))
    [TraceStep.aOp "Reflect.get",
     TraceStep.aLog "調用者 => [env] 獲取屬性 => [navigator], 結果 => [\x7b\"language\":\"en\"\x7d]"]
    (by decide) (by decide) (by rfl)
  exact ⟨h.1, h.2 rfl (by decide)⟩

/-- C5 (as amended): for every key not excluded by `watchedProperties` AND
every path outside the exempt `console` subtree, a successful read through
the wrapper performs the real underlying read; with no after-read hook it
returns the child wrapper when the raw value is a (truthy) object, a function
wrapper when it is a function, and exactly the raw value otherwise; a
configured after-read hook's non-nullish return value supersedes the
computed value. -/
theorem C5_read_contract
    (opts : ProxyOptions) (path : String) (t : JSValue) (prop : PropKey)
    (v : JSValue) (tr : List TraceStep)
    (hw : watchedBypass opts prop = false)
    (hc : jsIncludes path "console" = false)
    (hrun : getTrap opts path t prop = Except.ok (v, tr)) :
    (∃ bs rest, tr = bs ++ TraceStep.aOp "Reflect.get" :: rest) ∧
    (opts.afterGet = none →
      ((isTruthy (reflectGet t prop) && isObjType (reflectGet t prop)) = true →
        v = JSValue.vProxy (path ++ "." ++ propToString prop) (reflectGet t prop)) ∧
      ((isTruthy (reflectGet t prop) && isObjType (reflectGet t prop)) = false →
        isFnType (reflectGet t prop) = true →
        v = JSValue.vFnProxy (path ++ "." ++ propToString prop) (reflectGet t prop)) ∧
      ((isTruthy (reflectGet t prop) && isObjType (reflectGet t prop)) = false →
        isFnType (reflectGet t prop) = false →
        v = reflectGet t prop)) ∧
    (∀ h, opts.afterGet = some h →
      v = (let w := wrapForGet (path ++ "." ++ propToString prop) (reflectGet t prop)
           if isNullish (h path prop w) then w else h path prop w)) := by
  refine ⟨?_, fun hag => ⟨fun hobj => ?_, fun hnobj hfn => ?_, fun hnobj hnfn => ?_⟩,
    (getTrap_value _ _ _ _ _ _ hw hc hrun).2⟩
  · obtain ⟨bs, as, s, htr, hbs, has2, hser⟩ :=
      getTrap_shape _ _ _ _ _ _ hw hc hrun
    exact ⟨bs, as ++ [TraceStep.aLog ("調用者 => [" ++ path ++ "] 獲取屬性 => [" ++
      propStr prop ++ "], 結果 => [" ++ s ++ "]")], by rw [htr]; simp⟩
  · have hv := (getTrap_value _ _ _ _ _ _ hw hc hrun).1 hag
    rw [hv]; simp [wrapForGet, hobj]
  · have hv := (getTrap_value _ _ _ _ _ _ hw hc hrun).1 hag
    rw [hv]; simp [wrapForGet, hnobj, hfn]
  · have hv := (getTrap_value _ _ _ _ _ _ hw hc hrun).1 hag
    rw [hv]; simp [wrapForGet, hnobj, hnfn]

/-- Counterexample to C5 as stated: at a path containing `console`
(e.g. wrapping rooted at a chain whose parent is `obj.console`) a read of a
key holding an object — a key not excluded by any `watchedProperties` —
returns the raw unwrapped object, not a wrapped value as the claim
requires. -/
theorem C5_counterexample :
    watchedBypass defaultOptions (PropKey.str "a") = false ∧
    getTrap defaultOptions "obj.console"
        (JSValue.vObj [(PropKey.str "a",
          JSValue.vObj [(PropKey.str "b", JSValue.vInt 1)])])
        (PropKey.str "a") =
      Except.ok (JSValue.vObj [(PropKey.str "b", JSValue.vInt 1)],
        [TraceStep.aOp "Reflect.get"]) ∧
    isObjOrFn (JSValue.vObj [(PropKey.str "b", JSValue.vInt 1)]) = true ∧
    isWrapped (JSValue.vObj [(PropKey.str "b", JSValue.vInt 1)]) = false :=
  ⟨rfl, rfl, rfl, rfl⟩

/-- Witness for C5: a watched, non-exempt read of an object-valued key hands
back the child wrapper at the concatenated path. -/
theorem C5_witness :
    JSValue.vProxy "env.nav" (JSValue.vObj []) =
      JSValue.vProxy ("env" ++ "." ++ "nav") (JSValue.vObj []) := by
  have h := C5_read_contract defaultOptions "env"
    (JSValue.vObj [(PropKey.str "nav", JSValue.vObj [])]) (PropKey.str "nav")
    (JSValue.vProxy "env.nav" (JSValue.vObj []))
    [TraceStep.aOp "Reflect.get",
     TraceStep.aLog "調用者 => [env] 獲取屬性 => [nav], 結果 => [\x7b\x7d]"]
    (by decide) (by decide) (by rfl)
  exact (h.2.1 rfl).1 (by decide)

theorem reflectGet_of_not_objOrFn (v : JSValue) (h : isObjOrFn v = false)
    (k : PropKey) : reflectGet v k = JSValue.vUndefined := by
  cases v <;>
    simp_all [isObjOrFn, isTruthy, isObjType, isFnType, typeof, reflectGet]

/-- A read on a non-reference value is the raw platform read (yielding
`undefined`), and the chain side condition steps through it. -/
theorem chainStep_prim (opts : ProxyOptions) (v : JSValue) (k : PropKey)
    (hno : isObjOrFn v = false) :
    readThrough opts v k = Except.ok (JSValue.vUndefined, []) ∧
    (∀ ks, chainOk opts v (k :: ks) = chainOk opts JSValue.vUndefined ks) := by
  cases v <;>
    simp_all [readThrough, chainOk, reflectGet, isObjOrFn, isTruthy,
      isObjType, isFnType, typeof]

/-- Chain preservation: starting from an object wrapper (or a non-reference
value), a chain of reads satisfying `chainOk` — under `watchedProps = null`
and no after-read hook — only ever hands back wrapped values for any object
or function result. -/
theorem readChain_wraps (opts : ProxyOptions)
    (hwp : opts.watchedProps = none) (hag : opts.afterGet = none) :
    ∀ ks (v r : JSValue) (tr : List TraceStep), chainOk opts v ks = true →
      (isObjOrFn v = false ∨ (∃ p t, v = JSValue.vProxy p t) ∨
        (ks = [] ∧ ∃ p t, v = JSValue.vFnProxy p t)) →
      readChain opts v ks = Except.ok (r, tr) →
      isObjOrFn r = true → isWrapped r = true := by
  intro ks
  induction ks with
  | nil =>
    intro v r tr hok hstart hrun hobj
    simp only [readChain, Except.ok.injEq, Prod.mk.injEq] at hrun
    obtain ⟨h1, h2⟩ := hrun
    subst h1
    rcases hstart with hno | ⟨p, t0, rfl⟩ | ⟨-, p, t0, rfl⟩
    · rw [hno] at hobj; cases hobj
    · rfl
    · rfl
  | cons k ks ih =>
    intro v r tr hok hstart hrun hobj
    rcases hstart with hno | ⟨p, t0, rfl⟩ | ⟨hcons, -⟩
    case cons.inr.inr.intro => exact absurd hcons (by simp)
    · -- a non-reference value: the raw read yields undefined and the chain
      -- continues outside instrumentation
      obtain ⟨hru, hck⟩ := chainStep_prim opts v k hno
      have hok2 : chainOk opts JSValue.vUndefined ks = true := (hck ks) ▸ hok
      simp only [readChain, hru] at hrun
      rcases hrc : readChain opts JSValue.vUndefined ks with e2 | ⟨r2, tr2⟩
      · rw [hrc] at hrun; exact absurd hrun (by simp)
      · rw [hrc] at hrun
        simp only [Except.ok.injEq, Prod.mk.injEq] at hrun
        obtain ⟨h1, h2⟩ := hrun
        subst h1
        exact ih JSValue.vUndefined _ _ hok2 (Or.inl rfl) hrc hobj
    · -- a read through an object wrapper: the get trap runs and wraps
      have hw : watchedBypass opts k = false := by simp [watchedBypass, hwp]
      simp only [chainOk] at hok
      cases hc : jsIncludes p "console" with
      | true => rw [hc] at hok; simp at hok
      | false =>
        rw [hc] at hok
        cases hfc : (isFnType (reflectGet t0 k) && !ks.isEmpty) with
        | true => rw [hfc] at hok; simp at hok
        | false =>
          rw [hfc] at hok
          simp only [Bool.false_eq_true, if_false] at hok
          rcases hg : getTrap opts p t0 k with e | ⟨v2, tr1⟩
          · rw [readChain, readThrough, hg] at hrun
            exact absurd hrun (by simp)
          · have hv2 : v2 = wrapForGet (p ++ "." ++ propToString k) (reflectGet t0 k) :=
              (getTrap_value _ _ _ _ _ _ hw hc hg).1 hag
            rw [readChain, readThrough, hg] at hrun
            dsimp only at hrun
            rcases hrc : readChain opts v2 ks with e2 | ⟨r2, tr2⟩
            · rw [hrc] at hrun; exact absurd hrun (by simp)
            · rw [hrc] at hrun
              simp only [Except.ok.injEq, Prod.mk.injEq] at hrun
              obtain ⟨h1, h2⟩ := hrun
              subst h1
              refine ih v2 _ _ (by rw [hv2]; exact hok) ?_ hrc hobj
              cases hobjc : (isTruthy (reflectGet t0 k) && isObjType (reflectGet t0 k)) with
              | true =>
                exact Or.inr (Or.inl ⟨p ++ "." ++ propToString k, reflectGet t0 k,
                  by rw [hv2]; simp [wrapForGet, hobjc]⟩)
              | false =>
                cases hfn : isFnType (reflectGet t0 k) with
                | true =>
                  -- a function-valued final read: `hfc` forces the rest of
                  -- the chain to be empty, and the wrap step yields a
                  -- function proxy
                  have hks : ks = [] := by
                    rw [hfn] at hfc
                    simpa using hfc
                  refine Or.inr (Or.inr ⟨hks,
                    p ++ "." ++ propToString k, reflectGet t0 k, ?_⟩)
                  rw [hv2]
                  simp [wrapForGet, hobjc, hfn]
                | false =>
                  refine Or.inl ?_
                  rw [hv2]
                  simp only [wrapForGet, hobjc, Bool.false_eq_true, if_false,
                    hfn, isObjOrFn]
                  simp [hobjc, hfn]

/-- C1 (as amended): values escaping through intercepted reads are wrapped
transitively — along any chain of reads through object wrappers at watched,
non-exempt paths (with no after-read hook), every object or function result
is a wrapped value — but results of invoke and construct through a wrapped
function are returned raw: exactly the underlying call's result, with no
wrapping applied. -/
theorem C1_wrapping_is_reads_only (opts : ProxyOptions) :
    (∀ (ks : List PropKey) (v r : JSValue) (tr : List TraceStep),
      opts.watchedProps = none → opts.afterGet = none →
      chainOk opts v ks = true →
      (isObjOrFn v = false ∨ (∃ p t, v = JSValue.vProxy p t) ∨
        (ks = [] ∧ ∃ p t, v = JSValue.vFnProxy p t)) →
      readChain opts v ks = Except.ok (r, tr) →
      isObjOrFn r = true → isWrapped r = true) ∧
    (∀ (path : String) (fn thisArg : JSValue) (args : List JSValue)
        (res : JSValue) (tr : List TraceStep),
      opts.beforeApply = none → opts.afterApply = none →
      applyTrap opts path fn thisArg args = Except.ok (res, tr) →
      res = reflectApply fn (if opts.bindThis then fn else thisArg) args) ∧
    (∀ (path : String) (fn : JSValue) (args : List JSValue)
        (res : JSValue) (tr : List TraceStep),
      constructTrap path fn args = Except.ok (res, tr) →
      res = reflectConstruct fn args) := by
  refine ⟨fun ks v r tr hwp hag hok hstart hrun hobj =>
      readChain_wraps opts hwp hag ks v r tr hok hstart hrun hobj,
    fun path fn thisArg args res tr hb ha hrun => ?_,
    fun path fn args res tr hrun => ?_⟩
  · unfold applyTrap at hrun
    rw [hb, ha] at hrun
    dsimp only at hrun
    split at hrun
    · obtain ⟨a0, h1, h2⟩ := exceptBind_ok _ _ _ hrun
      obtain ⟨s, h3, hres, htr⟩ := exceptMapPair_ok _ _ _ _ _ h2
      exact hres.symm
    · obtain ⟨sa, h1, h2⟩ := exceptBind_ok _ _ _ hrun
      obtain ⟨s, h3, hres, htr⟩ := exceptMapPair_ok _ _ _ _ _ h2
      exact hres.symm
  · unfold constructTrap at hrun
    obtain ⟨sa, h1, h2⟩ := exceptBind_ok _ _ _ hrun
    obtain ⟨s, h3, hres, htr⟩ := exceptMapPair_ok _ _ _ _ _ h2
    exact hres.symm

/-- Counterexample to C1 as stated: invoking a wrapped function that returns
an object hands the raw unwrapped object back to the caller. -/
theorem C1_counterexample :
    applyTrap defaultOptions "obj.f"
        (JSValue.vFunc "f" false (JSValue.vObj [(PropKey.str "x", JSValue.vInt 1)]))
        JSValue.vNull [] =
      Except.ok (JSValue.vObj [(PropKey.str "x", JSValue.vInt 1)],
        [TraceStep.aOp "Reflect.apply",
         TraceStep.aLog "調用者 => [obj.f] 調用函數 => [f], 傳參 => [[]], 結果 => [\x7b\"x\":1\x7d]"]) ∧
    isObjOrFn (JSValue.vObj [(PropKey.str "x", JSValue.vInt 1)]) = true ∧
    isWrapped (JSValue.vObj [(PropKey.str "x", JSValue.vInt 1)]) = false :=
  ⟨rfl, rfl, rfl⟩

/-- Witness for C1: a two-level read chain `wrap(env).a.b` through object
wrappers hands back a wrapped object, and a chain ending in a
function-valued read hands back a wrapped function. -/
theorem C1_witness :
    isWrapped (JSValue.vProxy "env.a.b" (JSValue.vObj [])) = true ∧
    isWrapped (JSValue.vFnProxy "env.f"
      (JSValue.vFunc "f" false JSValue.vUndefined)) = true :=
  ⟨(C1_wrapping_is_reads_only defaultOptions).1
    [PropKey.str "a", PropKey.str "b"]
    (JSValue.vProxy "env" (JSValue.vObj [(PropKey.str "a",
      JSValue.vObj [(PropKey.str "b", JSValue.vObj [])])]))
    (JSValue.vProxy "env.a.b" (JSValue.vObj []))
    [TraceStep.aOp "Reflect.get",
     TraceStep.aLog "調用者 => [env] 獲取屬性 => [a], 結果 => [\x7b\"b\":\x7b\x7d\x7d]",
     TraceStep.aOp "Reflect.get",
     TraceStep.aLog "調用者 => [env.a] 獲取屬性 => [b], 結果 => [\x7b\x7d]"]
    rfl rfl (by decide)
    (Or.inr (Or.inl ⟨"env", JSValue.vObj [(PropKey.str "a",
      JSValue.vObj [(PropKey.str "b", JSValue.vObj [])])], rfl⟩))
    (by rfl) (by decide),
   (C1_wrapping_is_reads_only defaultOptions).1
    [PropKey.str "f"]
    (JSValue.vProxy "env" (JSValue.vObj [(PropKey.str "f",
      JSValue.vFunc "f" false JSValue.vUndefined)]))
    (JSValue.vFnProxy "env.f" (JSValue.vFunc "f" false JSValue.vUndefined))
    [TraceStep.aOp "Reflect.get",
     TraceStep.aLog "調用者 => [env] 獲取屬性 => [f], 結果 => [function f() [native code]]"]
    rfl rfl (by decide)
    (Or.inr (Or.inl ⟨"env", JSValue.vObj [(PropKey.str "f",
      JSValue.vFunc "f" false JSValue.vUndefined)], rfl⟩))
    (by rfl) (by decide)⟩
